import Mathlib

/-!
Verification of the streaming response relay in `webapp/server.py`
(`stream_agent_response`): the component that consumes upstream events from
the hosted agent service and forwards normalized output events downstream.

The embedding models:
  * JSON values and a parser standing for Python `json.loads`;
  * the upstream event objects (attribute probing via `Option` fields,
    with the `getattr` defaults applied at the use sites, as in the source);
  * the per-request mutable state (`pending_tools`, `pending_args`,
    Python dicts modelled as association lists keyed by `Option String`,
    since the source can insert a `None` key);
  * the event-dispatch body of the polling loop (`step`), and the loop
    itself driven by the bridge queue contents (`go` / `run`), where the
    queue holds upstream events, the end-of-stream sentinel (`None` in the
    source) or an exception pushed by the bridge thread.
-/

/-- JSON values, as produced by Python json.loads. Numbers keep their
source lexeme to avoid committing to a numeric representation. -/
inductive Json where
  | null : Json
  | bool (b : Bool) : Json
  | num (lexeme : String) : Json
  | str (s : String) : Json
  | arr (items : List Json) : Json
  | obj (fields : List (String × Json)) : Json
deriving Repr

/-- Whitespace characters permitted between JSON tokens. -/
def jsonWs (c : Char) : Bool :=
  c = ' ' || c = '\t' || c = '\n' || c = '\r'

/-- Drop leading JSON whitespace. -/
def skipWs : List Char → List Char
  | [] => []
  | c :: cs => if jsonWs c then skipWs cs else c :: cs

/-- Decimal digit test. -/
def isDigitC (c : Char) : Bool := '0' ≤ c && c ≤ '9'

/-- Hex digit test. -/
def isHexC (c : Char) : Bool :=
  isDigitC c || ('a' ≤ c && c ≤ 'f') || ('A' ≤ c && c ≤ 'F')

/-- Value of a hex digit. -/
def hexVal (c : Char) : Nat :=
  if isDigitC c then c.toNat - '0'.toNat
  else if 'a' ≤ c && c ≤ 'f' then c.toNat - 'a'.toNat + 10
  else if 'A' ≤ c && c ≤ 'F' then c.toNat - 'A'.toNat + 10
  else 0

/-- Single-character JSON string escapes. -/
def escChar (c : Char) : Option Char :=
  if c = '"' then some '"'
  else if c = '\\' then some '\\'
  else if c = '/' then some '/'
  else if c = 'b' then some (Char.ofNat 8)
  else if c = 'f' then some (Char.ofNat 12)
  else if c = 'n' then some '\n'
  else if c = 'r' then some (Char.ofNat 13)
  else if c = 't' then some '\t'
  else none

/-- Parse the body of a JSON string after the opening quote, returning the
decoded characters and the remaining input. Fuel bounds the recursion. -/
def parseStrChars : Nat → List Char → Option (List Char × List Char)
  | 0, _ => none
  | _, [] => none
  | fuel + 1, c :: cs =>
    if c = '"' then some ([], cs)
    else if c = '\\' then
      match cs with
      | [] => none
      | e :: cs2 =>
        match escChar e with
        | some ch =>
          match parseStrChars fuel cs2 with
          | some (body, rest) => some (ch :: body, rest)
          | none => none
        | none =>
          if e = 'u' then
            match cs2 with
            | h1 :: h2 :: h3 :: h4 :: cs3 =>
              if isHexC h1 && isHexC h2 && isHexC h3 && isHexC h4 then
                match parseStrChars fuel cs3 with
                | some (body, rest) =>
                  some (Char.ofNat
                    (((hexVal h1 * 16 + hexVal h2) * 16 + hexVal h3) * 16
                      + hexVal h4) :: body, rest)
                | none => none
              else none
            | _ => none
          else none
    else if c.toNat < 32 then none
    else
      match parseStrChars fuel cs with
      | some (body, rest) => some (c :: body, rest)
      | none => none

/-- Split off a maximal run of decimal digits. -/
def splitDigits : List Char → (List Char × List Char)
  | [] => ([], [])
  | c :: cs =>
    if isDigitC c then
      let p := splitDigits cs
      (c :: p.1, p.2)
    else ([], c :: cs)

/-- Parse the integer part of a JSON number (strict: no leading zeros). -/
def parseIntPart : List Char → Option (List Char × List Char)
  | [] => none
  | c :: cs =>
    if c = '0' then
      match cs with
      | d :: _ => if isDigitC d then none else some (['0'], cs)
      | [] => some (['0'], [])
    else if isDigitC c then
      let p := splitDigits cs
      some (c :: p.1, p.2)
    else none

/-- Parse the optional fraction part of a JSON number. -/
def parseFracPart : List Char → Option (List Char × List Char)
  | '.' :: cs =>
    let p := splitDigits cs
    if p.1 = [] then none else some ('.' :: p.1, p.2)
  | cs => some ([], cs)

/-- Parse the optional exponent part of a JSON number. -/
def parseExpPart : List Char → Option (List Char × List Char)
  | c :: cs =>
    if c = 'e' || c = 'E' then
      match cs with
      | s :: cs2 =>
        if s = '+' || s = '-' then
          let p := splitDigits cs2
          if p.1 = [] then none else some (c :: s :: p.1, p.2)
        else
          let p := splitDigits (s :: cs2)
          if p.1 = [] then none else some (c :: p.1, p.2)
      | [] => none
    else some ([], c :: cs)
  | [] => some ([], [])

/-- Parse a complete JSON number lexeme (strict grammar). -/
def parseNum (cs : List Char) : Option (List Char × List Char) :=
  match cs with
  | '-' :: cs1 =>
    match parseIntPart cs1 with
    | some (ip, r1) =>
      match parseFracPart r1 with
      | some (fp, r2) =>
        match parseExpPart r2 with
        | some (ep, r3) => some ('-' :: (ip ++ fp ++ ep), r3)
        | none => none
      | none => none
    | none => none
  | _ =>
    match parseIntPart cs with
    | some (ip, r1) =>
      match parseFracPart r1 with
      | some (fp, r2) =>
        match parseExpPart r2 with
        | some (ep, r3) => some (ip ++ fp ++ ep, r3)
        | none => none
      | none => none
    | none => none

/-- Parse one JSON value. Arrays and objects loop by re-entering the parser
on a reconstructed opener, so the recursion is structural on the fuel. -/
def parseVal : Nat → List Char → Option (Json × List Char)
  | 0, _ => none
  | fuel + 1, cs =>
    match skipWs cs with
    | [] => none
    | c :: rest =>
      if c = '"' then
        match parseStrChars (rest.length + 1) rest with
        | some (body, r) => some (Json.str (String.mk body), r)
        | none => none
      else if c = 't' then
        match rest with
        | 'r' :: 'u' :: 'e' :: r => some (Json.bool true, r)
        | _ => none
      else if c = 'f' then
        match rest with
        | 'a' :: 'l' :: 's' :: 'e' :: r => some (Json.bool false, r)
        | _ => none
      else if c = 'n' then
        match rest with
        | 'u' :: 'l' :: 'l' :: r => some (Json.null, r)
        | _ => none
      else if c = '[' then
        match skipWs rest with
        | ']' :: r => some (Json.arr [], r)
        | rest2 =>
          match parseVal fuel rest2 with
          | some (v, r1) =>
            match skipWs r1 with
            | ',' :: r2 =>
              match skipWs r2 with
              | ']' :: _ => none
              | r3 =>
                match parseVal fuel ('[' :: r3) with
                | some (Json.arr vs, r4) => some (Json.arr (v :: vs), r4)
                | _ => none
            | ']' :: r2 => some (Json.arr [v], r2)
            | _ => none
          | none => none
      else if c = '\x7b' then
        match skipWs rest with
        | '\x7d' :: r => some (Json.obj [], r)
        | '"' :: rest2 =>
          match parseStrChars (rest2.length + 1) rest2 with
          | some (key, r1) =>
            match skipWs r1 with
            | ':' :: r2 =>
              match parseVal fuel r2 with
              | some (v, r3) =>
                match skipWs r3 with
                | ',' :: r4 =>
                  match skipWs r4 with
                  | '\x7d' :: _ => none
                  | r5 =>
                    match parseVal fuel ('\x7b' :: r5) with
                    | some (Json.obj kvs, r6) =>
                      some (Json.obj ((String.mk key, v) :: kvs), r6)
                    | _ => none
                | '\x7d' :: r4 => some (Json.obj [(String.mk key, v)], r4)
                | _ => none
              | none => none
            | _ => none
          | none => none
        | _ => none
      else if c = '-' || isDigitC c then
        match parseNum (c :: rest) with
        | some (lex, r) => some (Json.num (String.mk lex), r)
        | none => none
      else none

/-- Model of Python json.loads: parse the whole string as one JSON value,
none on any parse error (in the source, the raised ValueError). -/
def Json.parse (s : String) : Option Json :=
  match parseVal (s.length * 2 + 8) s.data with
  | some (j, rest) => if skipWs rest = [] then some j else none
  | none => none

/-- A citation entry built on line 277/279 of the source:
url citations carry the url, file citations the file id. -/
inductive Citation where
  | url (u : String) : Citation
  | file (file_id : String) : Citation
deriving Repr, DecidableEq

/-- An annotation object on a content block. `type` and `file_id` are probed
with getattr in the source (so optional); `url` is read as a plain attribute
on url-citation annotations, hence modelled as always present. -/
structure Ann where
  type : Option String := none
  url : String := ""
  file_id : Option String := none
deriving Repr, DecidableEq

/-- A content block of a message item: `type` probed by getattr,
`annotations` probed with default `[]`. -/
structure ContentBlock where
  type : Option String := none
  annotations : List Ann := []
deriving Repr, DecidableEq

/-- A nested `item` payload of an upstream event. Every field is probed by
getattr in the source; the defaults used there (`'Tool'`, `[]`, `'{}'`, ...)
are applied at the use sites, as in the source. -/
structure Item where
  type : Option String := none
  id : Option String := none
  name : Option String := none
  server_label : Option String := none
  content : List ContentBlock := []
  arguments : Option String := none
deriving Repr, DecidableEq

/-- An upstream event object, with every attribute that the source probes
via getattr. A missing attribute is `none`. -/
structure UpstreamEvent where
  type : Option String := none
  delta : Option String := none
  item : Option Item := none
  item_id : Option String := none
  arguments : Option String := none
  error : Option String := none
deriving Repr, DecidableEq

/-- The payload of a tool_args output event: the buffered arguments string
parsed as JSON when possible, the raw string otherwise. -/
inductive ArgPayload where
  | parsed (j : Json) : ArgPayload
  | raw (s : String) : ArgPayload
deriving Repr

/-- Normalized output events written to the SSE channel, one constructor per
`type` tag the source emits (text_delta, tool_start, tool_args, tool_done,
tool_discovery, tool_discovery_done, citations, done, error). -/
inductive OutputEvent where
  | text_delta (content : String) : OutputEvent
  | tool_start (id : Option String) (name : String) : OutputEvent
  | tool_args (id : Option String) (arguments : ArgPayload) : OutputEvent
  | tool_done (id : Option String) (name : Option String) : OutputEvent
  | tool_discovery (source : String) : OutputEvent
  | tool_discovery_done : OutputEvent
  | citations (cites : List Citation) : OutputEvent
  | done : OutputEvent
  | error (msg : String) : OutputEvent
deriving Repr

/-- Entry of the pending_tools dict: `\x7b'name': ..., 'arguments': ...\x7d`. -/
structure ToolInfo where
  name : String
  arguments : String
deriving Repr, DecidableEq

/-- The per-request mutable state of the relay loop. Python dicts are
modelled as association lists; keys are `Option String` because the source
can insert a `None` item id (`pending_tools[item_id] = ...` runs without a
truthiness check on the output_item.added path). -/
structure St where
  pending_tools : List (Option String × ToolInfo) := []
  pending_args : List (Option String × String) := []
deriving Repr, DecidableEq

/-- Dict lookup on the association-list model. -/
def alookup {α : Type} (k : Option String) : List (Option String × α) → Option α
  | [] => none
  | (k2, v) :: t => if k2 = k then some v else alookup k t

/-- Dict assignment: replace in place when the key exists, append otherwise. -/
def ainsert {α : Type} (k : Option String) (v : α) :
    List (Option String × α) → List (Option String × α)
  | [] => [(k, v)]
  | (k2, v2) :: t => if k2 = k then (k, v) :: t else (k2, v2) :: ainsert k v t

/-- Dict `pop(key, None)`: remove the entry for the key when present. -/
def aerase {α : Type} (k : Option String) :
    List (Option String × α) → List (Option String × α)
  | [] => []
  | (k2, v2) :: t => if k2 = k then t else (k2, v2) :: aerase k t

/-- Python truthiness of an optional string (`if item_id:`):
false for a missing attribute and for the empty string. -/
def truthy : Option String → Bool
  | none => false
  | some s => s != ""

/-- Python `a or b` on an optional string with a string fallback
(`getattr(item, 'name', None) or ...`). -/
def pyOr (o : Option String) (d : String) : String :=
  match o with
  | some s => if s = "" then d else s
  | none => d

/-- Lines 227-231 of the source: `json.loads(arguments) if arguments else
\x7b\x7d` guarded by try/except; an empty string short-circuits to the empty
object, a parse failure falls back to the raw string. -/
def argPayload (s : String) : ArgPayload :=
  if s = "" then .parsed (Json.obj [])
  else
    match Json.parse s with
    | some j => .parsed j
    | none => .raw s

/-- The citation list built from the annotations of the last content block
(lines 274-279): url citations and file citations, in annotation order. -/
def collectCites (anns : List Ann) : List Citation :=
  anns.filterMap fun a =>
    if a.type = some "url_citation" then some (.url a.url)
    else if a.type = some "file_citation" then some (.file (a.file_id.getD "unknown"))
    else none

/-- Handler for `response.output_item.added` (lines 178-202). -/
def stepItemAdded (st : St) (it : Option Item) : St × List OutputEvent :=
  match it with
  | none => (st, [])
  | some item =>
    if item.type = some "mcp_call" then
      let tool_name := pyOr item.name (item.server_label.getD "Tool")
      ({ st with pending_tools := ainsert item.id ⟨tool_name, ""⟩ st.pending_tools },
       [.tool_start item.id tool_name])
    else if item.type = some "mcp_list_tools" then
      (st, [.tool_discovery (item.server_label.getD "knowledge base")])
    else if item.type = some "function_call" then
      let func_name := item.name.getD "Tool"
      ({ st with pending_tools := ainsert item.id ⟨func_name, ""⟩ st.pending_tools },
       [.tool_start item.id func_name])
    else (st, [])

/-- Handler for `response.mcp_call.in_progress` (lines 205-208):
initialize the argument buffer only when the id is truthy and absent. -/
def stepInProgress (st : St) (iid : Option String) : St × List OutputEvent :=
  if truthy iid && (alookup iid st.pending_args).isNone then
    ({ st with pending_args := ainsert iid "" st.pending_args }, [])
  else (st, [])

/-- Handler for `response.mcp_call_arguments.delta` (lines 211-217):
append the fragment to the (possibly fresh) buffer, emit nothing. -/
def stepArgsDelta (st : St) (iid : Option String) (d : String) : St × List OutputEvent :=
  if truthy iid then
    ({ st with pending_args :=
        ainsert iid ((alookup iid st.pending_args).getD "" ++ d) st.pending_args }, [])
  else (st, [])

/-- Handler for `response.mcp_call_arguments.done` (lines 220-232): only
for a truthy id with a pending_tools entry, store the event's arguments
string into the entry and emit tool_args with the parsed-or-raw payload of
that same string. -/
def stepArgsDone (st : St) (iid : Option String) (args : String) : St × List OutputEvent :=
  if truthy iid && (alookup iid st.pending_tools).isSome then
    let info := (alookup iid st.pending_tools).getD ⟨"", ""⟩
    ({ st with pending_tools := ainsert iid ⟨info.name, args⟩ st.pending_tools },
     [.tool_args iid (argPayload args)])
  else (st, [])

/-- Handler for `response.mcp_call.completed` (lines 235-242): for a truthy
id, emit tool_done with the recorded name (default 'Tool'), then drop the
id from both tables. -/
def stepCallCompleted (st : St) (iid : Option String) : St × List OutputEvent :=
  if truthy iid then
    (⟨aerase iid st.pending_tools, aerase iid st.pending_args⟩,
     [.tool_done iid (some ((alookup iid st.pending_tools).map ToolInfo.name |>.getD "Tool"))])
  else (st, [])

/-- Handler for `response.output_item.done` (lines 250-282): function_call
completion (tool_args on parse success, silent pass on failure, then
tool_done without a name) or message citations from the last content block
when that block is an output_text block. -/
def stepItemDone (st : St) (it : Option Item) : St × List OutputEvent :=
  match it with
  | none => (st, [])
  | some item =>
    if item.type = some "function_call" then
      let func_args := item.arguments.getD "\x7b\x7d"
      let argsOut :=
        if func_args = "" then [OutputEvent.tool_args item.id (.parsed (Json.obj []))]
        else
          match Json.parse func_args with
          | some j => [OutputEvent.tool_args item.id (.parsed j)]
          | none => []
      ({ st with pending_tools := aerase item.id st.pending_tools },
       argsOut ++ [.tool_done item.id none])
    else if item.type = some "message" then
      (st,
        match item.content.getLast? with
        | none => []
        | some lastB =>
          if lastB.type = some "output_text" then
            let cites := collectCites lastB.annotations
            if cites = [] then [] else [.citations cites]
          else [])
    else (st, [])

/-- One iteration of the event-dispatch chain of the polling loop
(lines 169-291): classify the event by its `type` attribute, update the
state and produce the output events yielded for it, in order. -/
def step (st : St) (e : UpstreamEvent) : St × List OutputEvent :=
  if e.type = some "response.output_text.delta" then
    (st, [.text_delta (e.delta.getD "")])
  else if e.type = some "response.output_item.added" then
    stepItemAdded st e.item
  else if e.type = some "response.mcp_call.in_progress" then
    stepInProgress st e.item_id
  else if e.type = some "response.mcp_call_arguments.delta" then
    stepArgsDelta st e.item_id (e.delta.getD "")
  else if e.type = some "response.mcp_call_arguments.done" then
    stepArgsDone st e.item_id (e.arguments.getD "\x7b\x7d")
  else if e.type = some "response.mcp_call.completed" then
    stepCallCompleted st e.item_id
  else if e.type = some "response.mcp_list_tools.completed" then
    (st, [.tool_discovery_done])
  else if e.type = some "response.output_item.done" then
    stepItemDone st e.item
  else if e.type = some "response.completed" then
    (st, [.done])
  else if e.type = some "error" then
    (st, [.error (e.error.getD "Unknown error")])
  else (st, [])

/-- One element of the bridge hand-off queue: an upstream event, the `None`
end-of-stream sentinel, or an exception pushed by the bridge thread. -/
inductive QItem where
  | ev (e : UpstreamEvent) : QItem
  | sentinel : QItem
  | exc (msg : String) : QItem
deriving Repr

/-- The polling loop over the queue contents: the sentinel breaks the loop
with no further output; an exception is re-raised and caught by the outer
handler, which yields a single error event and ends the generator; an
upstream event is dispatched through `step`. -/
def go (st : St) : List QItem → List OutputEvent
  | [] => []
  | .sentinel :: _ => []
  | .exc m :: _ => [.error m]
  | .ev e :: rest =>
    let p := step st e
    p.2 ++ go p.1 rest

/-- The whole relay run of `stream_agent_response` from its initial empty
state, as a function from the queue contents to the emitted output events. -/
def run (items : List QItem) : List OutputEvent :=
  go ⟨[], []⟩ items

/-- Convenience constructor: a `response.output_text.delta` event. -/
def evText (d : String) : UpstreamEvent :=
  { type := some "response.output_text.delta", delta := some d }

/-- Convenience constructor: a `response.output_item.added` event. -/
def evItemAdded (it : Option Item) : UpstreamEvent :=
  { type := some "response.output_item.added", item := it }

/-- Convenience constructor: a `response.mcp_call.in_progress` event. -/
def evInProgress (iid : Option String) : UpstreamEvent :=
  { type := some "response.mcp_call.in_progress", item_id := iid }

/-- Convenience constructor: a `response.mcp_call_arguments.delta` event. -/
def evArgsDelta (iid : String) (d : String) : UpstreamEvent :=
  { type := some "response.mcp_call_arguments.delta", item_id := some iid,
    delta := some d }

/-- Convenience constructor: a `response.mcp_call_arguments.done` event. -/
def evArgsDone (iid : String) (args : String) : UpstreamEvent :=
  { type := some "response.mcp_call_arguments.done", item_id := some iid,
    arguments := some args }

/-- Convenience constructor: a `response.mcp_call.completed` event. -/
def evCallCompleted (iid : String) : UpstreamEvent :=
  { type := some "response.mcp_call.completed", item_id := some iid }

/-- Convenience constructor: a `response.output_item.done` event. -/
def evItemDone (it : Option Item) : UpstreamEvent :=
  { type := some "response.output_item.done", item := it }

/-- Convenience constructor: a `response.completed` event. -/
def evRespCompleted : UpstreamEvent :=
  { type := some "response.completed" }

/-- Convenience constructor: an upstream `error` event. -/
def evErr (msg : String) : UpstreamEvent :=
  { type := some "error", error := some msg }

/-- Convenience constructor: an mcp_call tool item. -/
def mcpItem (iid : String) (nm : String) : Item :=
  { type := some "mcp_call", id := some iid, name := some nm }

/-- Convenience constructor: a completed message item with given content. -/
def msgItem (c : List ContentBlock) : Item :=
  { type := some "message", content := c }

/-- Concatenation of the content of all text_delta output events, in order. -/
def outTextConcat : List OutputEvent → String
  | [] => ""
  | .text_delta c :: rest => c ++ outTextConcat rest
  | _ :: rest => outTextConcat rest

/-- Concatenation of the delta fields of all upstream
`response.output_text.delta` events, in order (missing delta reads as
the empty string, matching the getattr default). -/
def upTextConcat : List UpstreamEvent → String
  | [] => ""
  | e :: rest =>
    (if e.type = some "response.output_text.delta" then e.delta.getD "" else "")
      ++ upTextConcat rest

/-- Concatenation of all argument-delta fragments observed for a given id,
in arrival order, over the queue contents. -/
def argDeltaConcat (i : String) : List QItem → String
  | [] => ""
  | .ev e :: rest =>
    (if e.type = some "response.mcp_call_arguments.delta" ∧ e.item_id = some i
     then e.delta.getD "" else "") ++ argDeltaConcat i rest
  | _ :: rest => argDeltaConcat i rest

/-- Whether an output event is one of the two terminal kinds. -/
def isTerminal : OutputEvent → Bool
  | .done => true
  | .error _ => true
  | _ => false

/-- The event type tags recognized by the dispatch chain of the loop. -/
def recognizedTags : List String :=
  ["response.output_text.delta", "response.output_item.added",
   "response.mcp_call.in_progress", "response.mcp_call_arguments.delta",
   "response.mcp_call_arguments.done", "response.mcp_call.completed",
   "response.mcp_list_tools.completed", "response.output_item.done",
   "response.completed", "error"]

/-- The tool name as described by claim C9, written from the claim's words:
the name field when present and non-empty, otherwise the server_label field
when present, otherwise the literal 'Tool'. -/
def claimed_tool_name (item : Item) : String :=
  match item.name with
  | some n =>
    if n = "" then
      match item.server_label with
      | some sl => sl
      | none => "Tool"
    else n
  | none =>
    match item.server_label with
    | some sl => sl
    | none => "Tool"

/-- Queue contents exercising a divergence between delta fragments and the
arguments string carried by the arguments-done event. -/
def c1Input : List QItem :=
  [.ev (evItemAdded (some (mcpItem "1" "t"))),
   .ev (evArgsDelta "1" "abc"),
   .ev (evArgsDone "1" "xyz"),
   .sentinel]

/-- Helper: no handler for output_item.added ever emits a text_delta. -/
theorem outText_stepItemAdded (st : St) (it : Option Item) :
    outTextConcat (stepItemAdded st it).2 = "" := by
  unfold stepItemAdded
  cases it with
  | none => rfl
  | some item => (repeat' split) <;> rfl

/-- Helper: no handler for output_item.done ever emits a text_delta. -/
theorem outText_stepItemDone (st : St) (it : Option Item) :
    outTextConcat (stepItemDone st it).2 = "" := by
  unfold stepItemDone
  cases it with
  | none => rfl
  | some item =>
    dsimp only
    (repeat' split) <;> rfl

/-- Helper: the text content emitted by one dispatch step is exactly the
delta of a text event and empty for every other event. -/
theorem step_text (st : St) (e : UpstreamEvent) :
    outTextConcat (step st e).2
      = (if e.type = some "response.output_text.delta" then e.delta.getD "" else "") := by
  unfold step
  split
  · simp [outTextConcat]
  split
  · exact outText_stepItemAdded st e.item
  split
  · unfold stepInProgress; (repeat' split) <;> rfl
  split
  · unfold stepArgsDelta; (repeat' split) <;> rfl
  split
  · unfold stepArgsDone; (repeat' split) <;> rfl
  split
  · unfold stepCallCompleted; (repeat' split) <;> rfl
  split
  · rfl
  split
  · exact outText_stepItemDone st e.item
  split
  · rfl
  split
  · rfl
  · rfl

/-- Helper: text concatenation distributes over list append. -/
theorem outTextConcat_append (a b : List OutputEvent) :
    outTextConcat (a ++ b) = outTextConcat a ++ outTextConcat b := by
  induction a with
  | nil => simp [outTextConcat]
  | cons h t ih =>
    cases h <;> simp [outTextConcat, ih, String.append_assoc]

/-- Helper: text pass-through for the loop from an arbitrary state. -/
theorem go_text (es : List UpstreamEvent) : ∀ st : St,
    outTextConcat (go st (es.map QItem.ev ++ [QItem.sentinel])) = upTextConcat es := by
  induction es with
  | nil => intro st; rfl
  | cons e t ih =>
    intro st
    show outTextConcat ((step st e).2 ++ go (step st e).1 (t.map QItem.ev ++ [QItem.sentinel]))
      = upTextConcat (e :: t)
    rw [outTextConcat_append, step_text, ih]
    rfl

/-- Helper: processing an arguments-done event for an id with a pending
tool entry emits one tool_args event whose payload is the parsed-or-raw
form of the arguments string carried by that event, updates the stored
entry, and continues with the rest of the queue. -/
theorem go_argsDone_pending (st : St) (i args : String) (info : ToolInfo)
    (rest : List QItem) (hp : alookup (some i) st.pending_tools = some info)
    (hi : i ≠ "") :
    go st (QItem.ev (evArgsDone i args) :: rest)
      = OutputEvent.tool_args (some i) (argPayload args)
        :: go { st with pending_tools := ainsert (some i) ⟨info.name, args⟩ st.pending_tools } rest := by
  show (step st (evArgsDone i args)).2 ++ go (step st (evArgsDone i args)).1 rest = _
  have hstep : step st (evArgsDone i args) = stepArgsDone st (some i) args := rfl
  rw [hstep]
  unfold stepArgsDone
  rw [hp]
  simp [truthy, hi]

/-- Helper: the output of a completed message item is determined by the
last content block of the message alone. -/
theorem stepItemDone_message (st : St) (c : List ContentBlock) :
    stepItemDone st (some (msgItem c))
      = (st, match c.getLast? with
             | none => []
             | some lastB =>
               if lastB.type = some "output_text" then
                 if collectCites lastB.annotations = [] then []
                 else [OutputEvent.citations (collectCites lastB.annotations)]
               else []) := by
  unfold stepItemDone msgItem
  simp

/-- Helper: the mcp_call tool-name expression of the source agrees with the
name selection described by claim C9. -/
theorem pyOr_claimed (item : Item) :
    pyOr item.name (item.server_label.getD "Tool") = claimed_tool_name item := by
  unfold pyOr claimed_tool_name
  cases item.name with
  | none => cases item.server_label <;> rfl
  | some n =>
    by_cases hn : n = "" <;> cases item.server_label <;> simp [hn]

/-- Claim C1 is false as stated: after delta fragments "abc" for id 1, an
arguments-done event carrying "xyz" makes the relay emit the raw string
"xyz" from the done event itself, not the parsed-or-raw form of the
concatenated fragments "abc". -/
theorem C1_counterexample :
    run c1Input
      = [OutputEvent.tool_start (some "1") "t",
         OutputEvent.tool_args (some "1") (ArgPayload.raw "xyz")]
    ∧ argDeltaConcat "1" c1Input = "abc"
    ∧ argPayload (argDeltaConcat "1" c1Input) ≠ ArgPayload.raw "xyz" := by
  refine ⟨rfl, rfl, ?_⟩
  intro h
  have h2 : ArgPayload.raw "abc" = ArgPayload.raw "xyz" := h
  injection h2 with h3
  exact absurd h3 (by decide)

/-- Claim C1, amended: for a tool-call id with a pending tool entry, the
tool_args payload equals the parsed-or-raw form of the arguments string
carried by the arguments-done event itself, whatever argument-delta
fragments were accumulated for that id (the state, including any
accumulated buffer in pending_args, is universally quantified). -/
theorem C1_payload_from_done_event (st : St) (i args : String) (info : ToolInfo)
    (rest : List QItem) (hp : alookup (some i) st.pending_tools = some info)
    (hi : i ≠ "") :
    go st (QItem.ev (evArgsDone i args) :: rest)
      = OutputEvent.tool_args (some i) (argPayload args)
        :: go { st with pending_tools := ainsert (some i) ⟨info.name, args⟩ st.pending_tools } rest :=
  go_argsDone_pending st i args info rest hp hi

/-- Witness for C1: a state holding buffered fragments "abc" for id 1 still
yields the payload of the done event, the raw string "xyz". -/
theorem C1_witness :
    go ⟨[(some "1", ⟨"t", ""⟩)], [(some "1", "abc")]⟩
       [QItem.ev (evArgsDone "1" "xyz"), QItem.sentinel]
      = [OutputEvent.tool_args (some "1") (ArgPayload.raw "xyz")] := by
  rw [C1_payload_from_done_event ⟨[(some "1", ⟨"t", ""⟩)], [(some "1", "abc")]⟩ "1" "xyz"
        ⟨"t", ""⟩ [QItem.sentinel] rfl (by decide)]
  rfl

/-- Claim C2 is false as stated: an upstream event arriving after
response.completed is still processed and emitted, so the output stream
[done, text_delta "x"] has an event after done. -/
theorem C2_counterexample :
    run [QItem.ev evRespCompleted, QItem.ev (evText "x"), QItem.sentinel]
      = [OutputEvent.done, OutputEvent.text_delta "x"]
    ∧ (run [QItem.ev evRespCompleted, QItem.ev (evText "x"), QItem.sentinel]).getLast?
      = some (OutputEvent.text_delta "x") := ⟨rfl, rfl⟩

/-- Claim C2, amended: the loop terminates, emitting nothing further, when
the end-of-stream sentinel is dequeued, and a bridge fault produces exactly
one final error event; emitting done or error from an upstream event does
not by itself terminate the stream. -/
theorem C2_sentinel_and_fault_terminal (st : St) (rest : List QItem) (m : String) :
    go st (QItem.sentinel :: rest) = []
    ∧ go st (QItem.exc m :: rest) = [OutputEvent.error m] := ⟨rfl, rfl⟩

/-- Claim C3 is false as stated: a call-completed event for id "x" with no
prior ToolStart emits a tool_done event referencing that id. -/
theorem C3_counterexample :
    run [QItem.ev (evCallCompleted "x"), QItem.sentinel]
      = [OutputEvent.tool_done (some "x") (some "Tool")] := rfl

/-- Claim C3, amended: for an id with no pending tool entry, an
argument-delta event emits nothing (the fragment is only buffered), an
arguments-done event emits nothing and leaves the state unchanged, and a
call-completed event does not crash but emits a tool_done with the
fallback name Tool. -/
theorem C3_unknown_id_handling (st : St) (i d args : String)
    (hu : alookup (some i) st.pending_tools = none) (hi : i ≠ "") :
    (step st (evArgsDelta i d)).2 = []
    ∧ step st (evArgsDone i args) = (st, [])
    ∧ (step st (evCallCompleted i)).2 = [OutputEvent.tool_done (some i) (some "Tool")] := by
  refine ⟨?_, ?_, ?_⟩
  · have hstep : step st (evArgsDelta i d) = stepArgsDelta st (some i) d := rfl
    rw [hstep]; unfold stepArgsDelta; (repeat' split) <;> rfl
  · have hstep : step st (evArgsDone i args) = stepArgsDone st (some i) args := rfl
    rw [hstep]; unfold stepArgsDone; rw [hu]; simp
  · have hstep : step st (evCallCompleted i) = stepCallCompleted st (some i) := rfl
    rw [hstep]; unfold stepCallCompleted; rw [hu]; simp [truthy, hi]

/-- Witness for C3 at id "x" on the empty state. -/
theorem C3_witness :
    (step ⟨[], []⟩ (evArgsDelta "x" "d")).2 = []
    ∧ step ⟨[], []⟩ (evArgsDone "x" "a") = (⟨[], []⟩, [])
    ∧ (step ⟨[], []⟩ (evCallCompleted "x")).2
      = [OutputEvent.tool_done (some "x") (some "Tool")] :=
  C3_unknown_id_handling ⟨[], []⟩ "x" "d" "a" rfl (by decide)

/-- Claim C4 is false as stated: when the upstream stream is exhausted
without a response.completed event, the generator ends after the sentinel
with no terminal done or error event in its output. -/
theorem C4_counterexample :
    run [QItem.ev (evText "hi"), QItem.sentinel] = [OutputEvent.text_delta "hi"]
    ∧ (run [QItem.ev (evText "hi"), QItem.sentinel]).all (fun o => !isTerminal o) = true :=
  ⟨rfl, rfl⟩

/-- Claim C4, amended: a terminal event is emitted when the bridge thread
delivers a fault (one final error), when the upstream signals completion
(done), and when the upstream signals an error (error); but upstream
exhaustion without response.completed ends the stream silently. -/
theorem C4_terminal_event_sources (st : St) (m emsg : String) :
    go st [QItem.exc m] = [OutputEvent.error m]
    ∧ step st evRespCompleted = (st, [OutputEvent.done])
    ∧ step st (evErr emsg) = (st, [OutputEvent.error emsg]) := ⟨rfl, rfl, rfl⟩

/-- Claim C5: for every sequence of upstream events, the concatenation of
the content of all emitted text_delta events equals the concatenation, in
order, of the delta fields of all upstream response.output_text.delta
events. -/
theorem C5_text_passthrough (es : List UpstreamEvent) :
    outTextConcat (run (es.map QItem.ev ++ [QItem.sentinel])) = upTextConcat es :=
  go_text es ⟨[], []⟩

/-- Claim C6 is false as stated: the empty string is not valid JSON, yet an
arguments-done event carrying it makes the relay emit the parsed empty
object, not the raw string. -/
theorem C6_counterexample :
    Json.parse "" = none
    ∧ run [QItem.ev (evItemAdded (some (mcpItem "1" "t"))),
           QItem.ev (evArgsDone "1" ""), QItem.sentinel]
      = [OutputEvent.tool_start (some "1") "t",
         OutputEvent.tool_args (some "1") (ArgPayload.parsed (Json.obj []))]
    ∧ ArgPayload.parsed (Json.obj []) ≠ ArgPayload.raw "" := by
  refine ⟨rfl, rfl, ?_⟩
  intro h
  exact ArgPayload.noConfusion h

/-- Claim C6, amended: when an arguments-done event for a pending tool id
carries a non-empty string that is not valid JSON, the relay emits a
tool_args event carrying the raw string and processing continues with the
rest of the queue; an empty arguments string is instead emitted as the
parsed empty object. -/
theorem C6_malformed_json_raw_forward (st : St) (i args : String) (info : ToolInfo)
    (rest : List QItem) (hp : alookup (some i) st.pending_tools = some info)
    (hi : i ≠ "") (hne : args ≠ "") (hbad : Json.parse args = none) :
    go st (QItem.ev (evArgsDone i args) :: rest)
      = OutputEvent.tool_args (some i) (ArgPayload.raw args)
        :: go { st with pending_tools := ainsert (some i) ⟨info.name, args⟩ st.pending_tools } rest := by
  rw [go_argsDone_pending st i args info rest hp hi]
  have hpay : argPayload args = ArgPayload.raw args := by
    unfold argPayload
    rw [if_neg hne, hbad]
  rw [hpay]

/-- Witness for C6: the invalid JSON string not-json is forwarded raw and a
following text delta is still processed. -/
theorem C6_witness :
    go ⟨[(some "1", ⟨"t", ""⟩)], []⟩
       [QItem.ev (evArgsDone "1" "not-json"), QItem.ev (evText "k"), QItem.sentinel]
      = [OutputEvent.tool_args (some "1") (ArgPayload.raw "not-json"),
         OutputEvent.text_delta "k"] := by
  rw [C6_malformed_json_raw_forward ⟨[(some "1", ⟨"t", ""⟩)], []⟩ "1" "not-json" ⟨"t", ""⟩
        [QItem.ev (evText "k"), QItem.sentinel] rfl (by decide) (by decide) rfl]
  rfl

/-- Claim C7 is false as stated: a completed message whose last content
block carries a url-citation annotation but is not an output_text block
produces no citations event at all. -/
theorem C7_counterexample :
    run [QItem.ev (evItemDone (some (msgItem
        [⟨some "refusal", [⟨some "url_citation", "u", none⟩]⟩]))), QItem.sentinel] = []
    ∧ collectCites [⟨some "url_citation", "u", none⟩] = [Citation.url "u"] := ⟨rfl, rfl⟩

/-- Claim C7, amended: when the last content block of a completed message
item is an output_text block, the relay emits at most one citations event
listing exactly the url-citation and file-citation annotations of that
block (none when that list is empty), and the output never depends on the
earlier content blocks, which are universally quantified here. -/
theorem C7_citations_last_output_text_block (st : St) (bs : List ContentBlock)
    (b : ContentBlock) (hb : b.type = some "output_text") :
    step st (evItemDone (some (msgItem (bs ++ [b]))))
      = (st, if collectCites b.annotations = [] then []
             else [OutputEvent.citations (collectCites b.annotations)]) := by
  have hstep : step st (evItemDone (some (msgItem (bs ++ [b]))))
      = stepItemDone st (some (msgItem (bs ++ [b]))) := rfl
  rw [hstep, stepItemDone_message, List.getLast?_concat]
  dsimp only
  rw [hb]
  simp

/-- Witness for C7: annotations on an earlier block are ignored, the two
citation annotations of the last output_text block are flattened into a
single citations event. -/
theorem C7_witness :
    step ⟨[], []⟩ (evItemDone (some (msgItem
        [⟨some "output_text", [⟨some "url_citation", "early", none⟩]⟩,
         ⟨some "output_text", [⟨some "url_citation", "u", none⟩,
                               ⟨some "file_citation", "", some "f1"⟩]⟩])))
      = (⟨[], []⟩, [OutputEvent.citations [Citation.url "u", Citation.file "f1"]]) :=
  (C7_citations_last_output_text_block ⟨[], []⟩
      [⟨some "output_text", [⟨some "url_citation", "early", none⟩]⟩]
      ⟨some "output_text", [⟨some "url_citation", "u", none⟩,
                            ⟨some "file_citation", "", some "f1"⟩]⟩ rfl).trans (by rfl)

/-- Claim C8: an upstream event whose type tag is none of the recognized
tags produces no output event and leaves both tracking tables unchanged. -/
theorem C8_unrecognized_ignored (st : St) (e : UpstreamEvent)
    (h : ∀ t ∈ recognizedTags, e.type ≠ some t) :
    step st e = (st, []) := by
  unfold step
  rw [if_neg (h _ (by decide)), if_neg (h _ (by decide)), if_neg (h _ (by decide)),
      if_neg (h _ (by decide)), if_neg (h _ (by decide)), if_neg (h _ (by decide)),
      if_neg (h _ (by decide)), if_neg (h _ (by decide)), if_neg (h _ (by decide)),
      if_neg (h _ (by decide))]

/-- Witness for C8 at a concrete unrecognized tag. -/
theorem C8_witness :
    step ⟨[], []⟩ { type := some "response.unknown_tag" } = (⟨[], []⟩, []) :=
  C8_unrecognized_ignored ⟨[], []⟩ _ (by decide)

/-- Claim C9: the name carried by the tool_start event for an mcp_call item
is the item's name field if present and non-empty, otherwise its
server_label field if present, otherwise the literal Tool. -/
theorem C9_tool_start_name (st : St) (item : Item)
    (h : item.type = some "mcp_call") :
    (step st (evItemAdded (some item))).2
      = [OutputEvent.tool_start item.id (claimed_tool_name item)] := by
  have hstep : step st (evItemAdded (some item)) = stepItemAdded st (some item) := rfl
  rw [hstep]
  unfold stepItemAdded
  dsimp only
  rw [if_pos h]
  dsimp only
  rw [pyOr_claimed]

/-- Witness for C9: an empty name falls back to the server label. -/
theorem C9_witness :
    (step ⟨[], []⟩ (evItemAdded (some { type := some "mcp_call", id := some "i1",
                                        name := some "", server_label := some "srv" }))).2
      = [OutputEvent.tool_start (some "i1") "srv"] :=
  (C9_tool_start_name ⟨[], []⟩ ({ type := some "mcp_call", id := some "i1",
                                  name := some "", server_label := some "srv" } : Item)
      rfl).trans (by rfl)

/-- Claim C10: a call-in-progress event for an id that already has an
accumulated argument buffer leaves the whole state, in particular that
buffer, unchanged, and emits nothing. -/
theorem C10_in_progress_preserves_buffer (st : St) (i buf : String)
    (h : alookup (some i) st.pending_args = some buf) :
    step st (evInProgress (some i)) = (st, []) := by
  have hstep : step st (evInProgress (some i)) = stepInProgress st (some i) := rfl
  rw [hstep]
  unfold stepInProgress
  rw [h]
  simp

/-- Witness for C10: a buffer holding fragments "ab" for id 1 survives a
subsequent in-progress event untouched. -/
theorem C10_witness :
    step ⟨[], [(some "1", "ab")]⟩ (evInProgress (some "1"))
      = (⟨[], [(some "1", "ab")]⟩, []) :=
  C10_in_progress_preserves_buffer ⟨[], [(some "1", "ab")]⟩ "1" "ab" rfl
